import Mathlib

/-!
Verification development for the feliciano-investing email ingestion pipeline.

The TypeScript core (src/services/email/utils.ts, parser.ts and the
processor's upsert logic) is shallowly embedded below.  JavaScript strings
are modelled as `List Char`, JavaScript numbers as `ℚ` (a `parseInt` /
`parseFloat` failure, i.e. NaN, is modelled as `Option.none`; the
behaviours under verification never exercise NaN arithmetic), and the
JavaScript regular expressions used by the code are implemented by a small
backtracking matcher with JS semantics (leftmost match, greedy with
backtracking).  The Prisma-backed store is modelled as an in-memory list of
records; `update` with an `undefined` field value leaves the stored value
unchanged, as Prisma does.
-/

namespace FelInv

abbrev JStr := List Char

def str (x : String) : JStr := x.data

/-- JS `\s` (the whitespace characters relevant to ASCII email text). -/
def isWsChar (c : Char) : Bool :=
  c == ' ' || c == '\t' || c == '\n' || c == '\r' || c == '\x0b' || c == '\x0c'

/-- JS `\w` word characters: [A-Za-z0-9_]. -/
def isWordChar (c : Char) : Bool := c.isAlpha || c.isDigit || c == '_'

def lowerL (s : JStr) : JStr := s.map Char.toLower

def startsWithL : JStr → JStr → Bool
  | _, [] => true
  | [], _ :: _ => false
  | c :: cs, d :: ds => c == d && startsWithL cs ds

def startsWithCI (s w : JStr) : Bool := startsWithL (lowerL s) w

/-- JS `String.prototype.includes`. -/
def containsL : JStr → JStr → Bool
  | [], needle => startsWithL [] needle
  | c :: cs, needle => startsWithL (c :: cs) needle || containsL cs needle

def trimL (s : JStr) : JStr :=
  ((s.dropWhile isWsChar).reverse.dropWhile isWsChar).reverse

/-- JS `split(",")`. -/
def splitComma : JStr → List JStr
  | [] => [[]]
  | c :: rest =>
    if c == ',' then [] :: splitComma rest
    else
      match splitComma rest with
      | [] => [[c]]
      | g :: gs => (c :: g) :: gs

def wordsAux : JStr → JStr → List JStr
  | [], cur => if cur.isEmpty then [] else [cur.reverse]
  | c :: rest, cur =>
    if isWsChar c then
      if cur.isEmpty then wordsAux rest [] else cur.reverse :: wordsAux rest []
    else wordsAux rest (c :: cur)

/-- JS `split(/\s+/)` applied to an already-trimmed string
(the code always trims before splitting). -/
def jsSplitWsT (s : JStr) : List JStr :=
  if s.isEmpty then [[]] else wordsAux s []

def joinSp : List JStr → JStr
  | [] => []
  | [x] => x
  | x :: y :: xs => x ++ ' ' :: joinSp (y :: xs)

/-- JS `replace(/\s+/g, " ")`. -/
def collapseWs : JStr → JStr
  | [] => []
  | [c] => if isWsChar c then [' '] else [c]
  | c :: d :: rest =>
    if isWsChar c then
      if isWsChar d then collapseWs (d :: rest)
      else ' ' :: collapseWs (d :: rest)
    else c :: collapseWs (d :: rest)

/-- JS `replace(/\n+/g, " ")`. -/
def replNlRuns : JStr → JStr
  | [] => []
  | [c] => if c == '\n' then [' '] else [c]
  | c :: d :: rest =>
    if c == '\n' then
      if d == '\n' then replNlRuns (d :: rest)
      else ' ' :: replNlRuns (d :: rest)
    else c :: replNlRuns (d :: rest)

def digitsToNat (s : JStr) : Nat :=
  s.foldl (fun a c => a * 10 + (c.toNat - 48)) 0

/-- JS `parseInt(s, 10)` on the digit strings the code feeds it
(`none` models NaN). -/
def parseIntQ (s : JStr) : Option ℚ :=
  let ds := s.takeWhile Char.isDigit
  if ds.isEmpty then none else some (digitsToNat ds : ℚ)

/-- JS `parseFloat` on the `[\d.,$]`-shaped strings the code feeds it
(`none` models NaN).  The value intPart.frac is built with `mkRat` so that
it reduces in the kernel. -/
def parseFloatQ (s : JStr) : Option ℚ :=
  let intPart := s.takeWhile Char.isDigit
  let rest := s.drop intPart.length
  let frac :=
    match rest with
    | '.' :: r => r.takeWhile Char.isDigit
    | _ => []
  if intPart.isEmpty && frac.isEmpty then none
  else some (mkRat (digitsToNat intPart * 10 ^ frac.length + digitsToNat frac) (10 ^ frac.length))

/-! ### A small backtracking regex matcher (JS semantics) -/

inductive RItem where
  | lit : JStr → RItem
  | cls : (Char → Bool) → Nat → Option Nat → RItem
  | grpOpt : List ((Char → Bool) × Nat × Option Nat) → RItem

def itemSize : RItem → Nat
  | .lit _ => 1
  | .cls _ _ _ => 1
  | .grpOpt l => l.length + 2

def itemsSize (l : List RItem) : Nat := (l.map itemSize).foldl (· + ·) 0

def decMax : Option Nat → Option Nat
  | none => none
  | some n => some (n - 1)

def maxPos : Option Nat → Bool
  | none => true
  | some n => decide (0 < n)

/-- Backtracking matcher anchored at the start of `s`; returns the rest of
the string past the (greedy, leftmost-preferred) match.  `fuel` bounds the
recursion depth; `reMatchLen` always supplies enough. -/
def reMatch : Nat → List RItem → JStr → Option JStr
  | 0, _, _ => none
  | _ + 1, [], s => some s
  | f + 1, .lit w :: rest, s =>
    if startsWithL s w then reMatch f rest (s.drop w.length) else none
  | f + 1, .cls p mn mx :: rest, s =>
    if 0 < mn then
      match s with
      | [] => none
      | c :: s' =>
        if p c && maxPos mx then reMatch f (.cls p (mn - 1) (decMax mx) :: rest) s' else none
    else
      match s with
      | [] => reMatch f rest []
      | c :: s' =>
        if p c && maxPos mx then
          match reMatch f (.cls p 0 (decMax mx) :: rest) s' with
          | some r => some r
          | none => reMatch f rest (c :: s')
        else reMatch f rest (c :: s')
  | f + 1, .grpOpt specs :: rest, s =>
    match reMatch f (specs.map (fun t => RItem.cls t.1 t.2.1 t.2.2) ++ rest) s with
    | some r => some r
    | none => reMatch f rest s

/-- Length of the match of `items` anchored at the start of `s`, if any. -/
def reMatchLen (items : List RItem) (s : JStr) : Option Nat :=
  match reMatch (s.length + itemsSize items + 1) items s with
  | some r => some (s.length - r.length)
  | none => none

/-- Leftmost match position and length (JS `String.prototype.match`). -/
def reFindAux (items : List RItem) : JStr → Nat → Option (Nat × Nat)
  | [], i =>
    match reMatchLen items [] with
    | some len => some (i, len)
    | none => none
  | c :: s', i =>
    match reMatchLen items (c :: s') with
    | some len => some (i, len)
    | none => reFindAux items s' (i + 1)

/-- The text of the first match of `items` in `s`, if any (JS match[0]). -/
def reFirst (items : List RItem) (s : JStr) : Option JStr :=
  match reFindAux items s 0 with
  | some (i, len) => some ((s.drop i).take len)
  | none => none

/-! ### utils.ts: parseAddress -/

structure Addr where
  street : JStr
  city : JStr
  state : JStr
  zip : Option JStr := none
deriving DecidableEq

/-- `/^\d{5}$/`. -/
def isZip5 (s : JStr) : Bool := s.length == 5 && s.all Char.isDigit

/-- utils.ts `parseAddress` (the later, zip-aware definition).  A thrown
`Error` is modelled as `Except.error` carrying the message. -/
def parseAddress (address : JStr) : Except JStr Addr :=
  let parts := (splitComma (trimL address)).map trimL
  if parts.length < 2 then
    .error ((str "Invalid address format: ") ++ address)
  else if parts.length == 2 then
    let street := parts.getD 0 []
    let cityStateZip := parts.getD 1 []
    let toks := jsSplitWsT (trimL cityStateZip)
    let lastPart := (toks.getLast?).getD []
    if isZip5 lastPart then
      let toks1 := toks.dropLast
      let state := (toks1.getLast?).getD []
      let city := joinSp toks1.dropLast
      .ok { street := street, city := city, state := state, zip := some lastPart }
    else
      let state := (toks.getLast?).getD []
      let city := joinSp toks.dropLast
      .ok { street := street, city := city, state := state, zip := none }
  else
    let street := parts.getD 0 []
    let city := parts.getD 1 []
    let stateZip := parts.getD 2 []
    let tz := jsSplitWsT (trimL stateZip)
    if 1 < tz.length && isZip5 ((tz.getLast?).getD []) then
      .ok { street := street, city := city, state := joinSp tz.dropLast,
            zip := some ((tz.getLast?).getD []) }
    else
      .ok { street := street, city := city, state := joinSp tz, zip := none }

/-! ### utils.ts: parsePrice, parseSpecs, parsePriceChange -/

/-- utils.ts `parsePrice`: strip `[$,]`, then `parseFloat`. -/
def parsePrice (priceStr : JStr) : Option ℚ :=
  parseFloatQ (priceStr.filter (fun c => !(c == '$' || c == ',')))

/-- JS alternation `(?:bd|beds?|bedrooms?)` expanded in JS trial order;
the pattern ends right after the alternation, so prefix trial order is all
that matters. -/
def bedsAlts : List JStr := [str "bd", str "beds", str "bed", str "bedrooms", str "bedroom"]

def bathsAlts : List JStr := [str "ba", str "baths", str "bath", str "bathrooms", str "bathroom"]

def altsPrefixCI (alts : List JStr) (s : JStr) : Bool :=
  alts.any (fun w => startsWithCI s w)

/-- `(?:sqft|sq\.?\s*ft\.?)` (the trailing `\.?` cannot affect a match). -/
def sqftUnitCI (s : JStr) : Bool :=
  startsWithCI s (str "sqft") ||
  (startsWithCI s (str "sq") &&
    (let r1 := s.drop 2
     let r2 := if startsWithL r1 (str ".") then r1.drop 1 else r1
     let r3 := r2.dropWhile isWsChar
     startsWithCI r3 (str "ft")))

/-- Leftmost occurrence of `(capture)\s*unit` where the capture is a
nonempty `capCls` run; returns the capture (JS match[1]).  The capture
class and the unit alternatives never overlap, so greedy runs need no
backtracking beyond the per-position scan. -/
def scanNumUnit (capCls : Char → Bool) (unit : JStr → Bool) : JStr → Option JStr
  | [] => none
  | c :: rest =>
    let run := (c :: rest).takeWhile capCls
    if run.isEmpty then scanNumUnit capCls unit rest
    else
      let after := ((c :: rest).drop run.length).dropWhile isWsChar
      if unit after then some run else scanNumUnit capCls unit rest

structure Specs where
  beds : Option ℚ := none
  baths : Option ℚ := none
  sqft : Option ℚ := none
deriving DecidableEq

/-- utils.ts `parseSpecs` (case-insensitive, synonym-tolerant version). -/
def parseSpecs (specsStr : JStr) : Specs :=
  { beds := (scanNumUnit Char.isDigit (altsPrefixCI bedsAlts) specsStr).bind parseIntQ,
    baths := (scanNumUnit (fun c => c.isDigit || c == '.') (altsPrefixCI bathsAlts) specsStr).bind parseFloatQ,
    sqft := (scanNumUnit (fun c => c.isDigit || c == ',') sqftUnitCI specsStr).bind
      (fun r => parseIntQ (r.filter (fun c => !(c == ',')))) }

/-- JS `Date` values as the code constructs them: either
`new Date(year, monthIndex, day)` with the raw constructor arguments, or
`new Date()` at the current instant (threaded in as an abstract tick). -/
inductive JDate where
  | ymd : Int → Int → Int → JDate
  | nowAt : Int → JDate
deriving DecidableEq

structure PCHint where
  amount : ℚ
  date : JDate
deriving DecidableEq

def tryPriceChangeAt (year : Int) (s : JStr) : Option PCHint :=
  match s with
  | '$' :: rest =>
    let d1 := rest.takeWhile Char.isDigit
    if d1.isEmpty then none else
    let r1 := rest.drop d1.length
    if startsWithL r1 (str "K") then
      let r2 := (r1.drop 1).dropWhile isWsChar
      if startsWithL r2 (str "(") then
        let d2 := (r2.drop 1).takeWhile Char.isDigit
        if d2.isEmpty then none else
        let r3 := ((r2.drop 1).drop d2.length)
        if startsWithL r3 (str "/") then
          let d3 := (r3.drop 1).takeWhile Char.isDigit
          if d3.isEmpty then none else
          let r4 := (r3.drop 1).drop d3.length
          if startsWithL r4 (str ")") then
            some { amount := ((digitsToNat d1 * 1000 : Nat) : ℚ),
                   date := .ymd year ((digitsToNat d2 : Int) - 1) (digitsToNat d3 : Int) }
          else none
        else none
      else none
    else none
  | _ => none

/-- utils.ts `parsePriceChange`: `/\$(\d+)K\s*\((\d+)\/(\d+)\)/` with the
year defaulting to the current calendar year (threaded in as `year`). -/
def parsePriceChange (year : Int) : JStr → Option PCHint
  | [] => none
  | c :: rest =>
    match tryPriceChangeAt year (c :: rest) with
    | some h => some h
    | none => parsePriceChange year rest

/-! ### utils.ts: extractListingId, determineSource -/

/-- `/\/(\d+)_zpid/` capture. -/
def findZpid : JStr → Option JStr
  | [] => none
  | '/' :: rest =>
    let d := rest.takeWhile Char.isDigit
    if !d.isEmpty && startsWithL (rest.drop d.length) (str "_zpid") then some d
    else findZpid rest
  | _ :: rest => findZpid rest

/-- `/\/home\/(\d+)/` capture. -/
def findHomeId : JStr → Option JStr
  | [] => none
  | c :: rest =>
    if startsWithL (c :: rest) (str "/home/") then
      let d := ((c :: rest).drop 6).takeWhile Char.isDigit
      if d.isEmpty then findHomeId rest else some d
    else findHomeId rest

/-- `/M(\d+-\d+)/` capture. -/
def findRealtorId : JStr → Option JStr
  | [] => none
  | 'M' :: rest =>
    let d1 := rest.takeWhile Char.isDigit
    if !d1.isEmpty && startsWithL (rest.drop d1.length) (str "-") then
      let d2 := ((rest.drop d1.length).drop 1).takeWhile Char.isDigit
      if d2.isEmpty then findRealtorId rest else some (d1 ++ '-' :: d2)
    else findRealtorId rest
  | _ :: rest => findRealtorId rest

/-- `/\/(\d+)\/?$/` capture (end-anchored). -/
def findLandId : JStr → Option JStr
  | [] => none
  | '/' :: rest =>
    let d := rest.takeWhile Char.isDigit
    let r := rest.drop d.length
    if !d.isEmpty && (r.isEmpty || r == ['/']) then some d
    else findLandId rest
  | _ :: rest => findLandId rest

/-- utils.ts `extractListingId`. -/
def extractListingId (url : JStr) (source : JStr) : JStr :=
  if source = str "zillow" then (findZpid url).getD url
  else if source = str "redfin" then (findHomeId url).getD url
  else if source = str "realtor" then (findRealtorId url).getD url
  else if source = str "land" then (findLandId url).getD url
  else url

/-- utils.ts `determineSource` (the later definition with the extra
`mail.zillow` / `notifications.realtor` / bare `land` checks). -/
def determineSource (email : JStr) (url : Option JStr) : JStr :=
  let le := lowerL email
  let lu := (url.map lowerL).getD []
  if containsL le (str "zillow") || containsL le (str "mail.zillow") || containsL lu (str "zillow") then
    str "zillow"
  else if containsL le (str "redfin") || containsL lu (str "redfin") then
    str "redfin"
  else if containsL le (str "realtor") || containsL le (str "notifications.realtor") ||
      containsL lu (str "realtor") || containsL lu (str "move.com") then
    str "realtor"
  else if containsL le (str "land.com") || containsL le (str "land") || containsL lu (str "land.com") then
    str "land"
  else
    str "unknown"

/-! ### utils.ts: normalizeAddress -/

def prevIsWord : Option Char → Bool
  | none => false
  | some c => isWordChar c

def nextIsWord : JStr → Bool
  | [] => false
  | c :: _ => isWordChar c

/-- `\bword\b` anchored at the start of `s`, with `prev` the character just
before this position (JS word boundary: wordness changes across the
boundary). -/
def wordAt (prev : Option Char) (word : JStr) (s : JStr) : Bool :=
  startsWithL s word &&
  (prevIsWord prev != isWordChar (word.headD 'a')) &&
  (isWordChar (word.getLastD 'a') != nextIsWord (s.drop word.length))

def wordAtCI (prev : Option Char) (word : JStr) (s : JStr) : Bool :=
  startsWithCI s word &&
  (prevIsWord prev != isWordChar (word.headD 'a')) &&
  (isWordChar (word.getLastD 'a') != nextIsWord (s.drop word.length))

/-- JS `replace(new RegExp("\\bword\\b", "g"), repl)`; scanning resumes
after each replacement on the source text. -/
def replaceWordGo (word repl : JStr) : Nat → Option Char → JStr → JStr
  | 0, _, s => s
  | _ + 1, _, [] => []
  | f + 1, prev, c :: rest =>
    if decide (0 < word.length) && wordAt prev word (c :: rest) then
      repl ++ replaceWordGo word repl f word.getLast? ((c :: rest).drop word.length)
    else c :: replaceWordGo word repl f (some c) rest

def replaceWordAll (word repl s : JStr) : JStr :=
  replaceWordGo word repl s.length none s

/-- The street-type abbreviation table, in source order. -/
def abbreviations : List (JStr × JStr) :=
  [(str "street", str "st"), (str "avenue", str "ave"), (str "road", str "rd"),
   (str "drive", str "dr"), (str "court", str "ct"), (str "circle", str "cir"),
   (str "boulevard", str "blvd"), (str "lane", str "ln"), (str "way", str "way"),
   (str "place", str "pl"), (str "terrace", str "ter"), (str "parkway", str "pkwy"),
   (str "highway", str "hwy"), (str "trail", str "trl"), (str "square", str "sq")]

def dirAlts : List JStr :=
  [str "north", str "south", str "east", str "west", str "n", str "s", str "e", str "w"]

/-- One match of `/\b(north|south|east|west|n|s|e|w)\b\.?/` at the current
position: returns the consumed length. -/
def dirMatchAt (prev : Option Char) (s : JStr) : Option Nat :=
  dirAlts.findSome? (fun w =>
    if wordAt prev w s then
      some (w.length + (if startsWithL (s.drop w.length) (str ".") then 1 else 0))
    else none)

def stripDirGo : Nat → Option Char → JStr → JStr
  | 0, _, s => s
  | _ + 1, _, [] => []
  | f + 1, prev, c :: rest =>
    match dirMatchAt prev (c :: rest) with
    | some n => stripDirGo f (((c :: rest).take n).getLast?) ((c :: rest).drop n)
    | none => c :: stripDirGo f (some c) rest

/-- `replace(/\b(north|south|east|west|n|s|e|w)\b\.?/g, "")`. -/
def stripDirectionals (s : JStr) : JStr := stripDirGo s.length none s

def unitAlts : List JStr := [str "unit", str "apt", str "#"]

/-- One match of `/\b(unit|apt|#)\b\.?\s*[\w\d-]*/i` at the current
position: returns the consumed length. -/
def unitMatchAt (prev : Option Char) (s : JStr) : Option Nat :=
  unitAlts.findSome? (fun w =>
    if wordAtCI prev w s then
      let r1 := s.drop w.length
      let n1 := if startsWithL r1 (str ".") then 1 else 0
      let r2 := r1.drop n1
      let n2 := (r2.takeWhile isWsChar).length
      let r3 := r2.drop n2
      let n3 := (r3.takeWhile (fun c => isWordChar c || c == '-')).length
      some (w.length + n1 + n2 + n3)
    else none)

def stripUnitsGo : Nat → Option Char → JStr → JStr
  | 0, _, s => s
  | _ + 1, _, [] => []
  | f + 1, prev, c :: rest =>
    match unitMatchAt prev (c :: rest) with
    | some n => stripUnitsGo f (((c :: rest).take n).getLast?) ((c :: rest).drop n)
    | none => c :: stripUnitsGo f (some c) rest

/-- `replace(/\b(unit|apt|#)\b\.?\s*[\w\d-]*/gi, "")`. -/
def stripUnits (s : JStr) : JStr := stripUnitsGo s.length none s

/-- utils.ts `normalizeAddress`: the canonical comparison key. -/
def normalizeAddress (street city state : JStr) : JStr :=
  let n0 := trimL (lowerL street)
  let n1 := abbreviations.foldl (fun acc fa => replaceWordAll fa.1 fa.2 acc) n0
  let n2 := stripDirectionals n1
  let n3 := stripUnits n2
  let n4 := n3.filter (fun c => !(c == '.' || c == ','))
  let n5 := trimL (collapseWs n4)
  n5 ++ '|' :: trimL (lowerL city) ++ '|' :: trimL (lowerL state)

/-! ### utils.ts / processor: mapStatus -/

inductive PStatus where
  | ACTIVE | PENDING | SOLD | OFF_MARKET
deriving DecidableEq

/-- `mapStatus`: free-text classification into the status enum. -/
def mapStatus (status : JStr) : PStatus :=
  let lower := lowerL status
  if containsL lower (str "pending") then .PENDING
  else if containsL lower (str "sold") then .SOLD
  else if containsL lower (str "off") then .OFF_MARKET
  else .ACTIVE

/-! ### Data model: ParsedProperty, PropertyRecord, the store -/

inductive PType where
  | HOME | LAND | CONDO | TOWNHOUSE | MULTI_FAMILY
deriving DecidableEq

/-- types.ts `ParsedProperty` (the candidate listing).  `price : Option ℚ`
models the JS number with `none` for NaN.  `county`, `yearBuilt` and
`description` are omitted: no modelled code path ever writes or reads
them. -/
structure ParsedProperty where
  street : JStr := []
  city : JStr := []
  state : JStr := []
  zip : Option JStr := none
  source : JStr := []
  sourceId : JStr := []
  url : JStr := []
  status : Option JStr := none
  price : Option ℚ := none
  priceChange : Option PCHint := none
  propertyType : Option PType := none
  beds : Option ℚ := none
  baths : Option ℚ := none
  sqft : Option ℚ := none
  lotSize : Option ℚ := none
  images : List JStr := []
  agent : Option JStr := none
  builder : Option JStr := none
deriving DecidableEq

/-- The persisted Property row (Prisma model), with a `Nat` surrogate id. -/
structure PropertyRecord where
  id : Nat := 0
  street : JStr := []
  city : JStr := []
  state : JStr := []
  zip : Option JStr := none
  source : JStr := []
  sourceId : JStr := []
  url : JStr := []
  status : PStatus := .ACTIVE
  price : ℚ := 0
  propertyType : PType := .HOME
  beds : Option ℚ := none
  baths : Option ℚ := none
  sqft : Option ℚ := none
  lotSize : Option ℚ := none
  images : List JStr := []
  agent : Option JStr := none
  builder : Option JStr := none
deriving DecidableEq

/-- The persisted PriceHistory row. -/
structure PriceHistoryEntry where
  propertyId : Nat
  oldPrice : ℚ
  newPrice : ℚ
  changeDate : JDate
deriving DecidableEq

/-- The durable store: property rows in insertion order plus the
append-only price history. -/
structure Store where
  nextId : Nat := 0
  props : List PropertyRecord := []
  history : List PriceHistoryEntry := []
deriving DecidableEq

def emptyStore : Store := {}

/-- `prisma.property.findUnique({where: {source_sourceId}})`. -/
def findBySourceAndSourceId (st : Store) (source sourceId : JStr) : Option PropertyRecord :=
  st.props.find? (fun p => p.source == source && p.sourceId == sourceId)

/-- `prisma.property.findMany` filtered by case-insensitive city and
state. -/
def findByCityState (st : Store) (city state : JStr) : List PropertyRecord :=
  st.props.filter (fun p => lowerL p.city == lowerL city && lowerL p.state == lowerL state)

/-! ### The upsert engine (processor `upsertProperty`) -/

structure Clock where
  now : Int
  curYear : Int
deriving DecidableEq

inductive UpsertResult where
  | created | updated
deriving DecidableEq

/-- The two-step identity resolution inside `upsertProperty`: unique lookup
by (source, sourceId), then the normalized-address fallback over records
with case-insensitively matching city and state. -/
def resolveExisting (st : Store) (c : ParsedProperty) : Option PropertyRecord :=
  match findBySourceAndSourceId st c.source c.sourceId with
  | some p => some p
  | none =>
    let normalized := normalizeAddress c.street c.city c.state
    (findByCityState st c.city c.state).find? (fun p =>
      normalizeAddress p.street p.city p.state == normalized)

/-- JS truthiness of an optional number (`0` and NaN are falsy). -/
def numTruthy : Option ℚ → Bool
  | none => false
  | some b => b != 0

/-- The `data` object of `upsertProperty` as persisted by
`prisma.property.create` (fields absent from `data` become null). -/
def createRecord (c : ParsedProperty) (q : ℚ) (id : Nat) : PropertyRecord :=
  { id := id,
    street := c.street, city := c.city, state := c.state, zip := c.zip,
    source := c.source, sourceId := c.sourceId, url := c.url,
    status := match c.status with | some t => mapStatus t | none => .ACTIVE,
    price := q,
    propertyType := c.propertyType.getD .HOME,
    beds := c.beds,
    baths := if numTruthy c.baths then c.baths else none,
    sqft := c.sqft,
    lotSize := if numTruthy c.lotSize then c.lotSize else none,
    images := c.images,
    agent := none, builder := none }

/-- The spread `{...data, beds, baths, sqft, images}` passed to
`prisma.property.update`: fields that are `undefined` in the update data
(`zip`, `lotSize` when the candidate lacks them) retain the stored value,
and `agent` / `builder` are absent from the data entirely. -/
def updateRecord (c : ParsedProperty) (q : ℚ) (r : PropertyRecord) : PropertyRecord :=
  { r with
    street := c.street, city := c.city, state := c.state,
    zip := match c.zip with | some z => some z | none => r.zip,
    source := c.source, sourceId := c.sourceId, url := c.url,
    status := match c.status with | some t => mapStatus t | none => .ACTIVE,
    price := q,
    propertyType := c.propertyType.getD .HOME,
    beds := match c.beds with | some b => some b | none => r.beds,
    baths := if numTruthy c.baths then c.baths else r.baths,
    sqft := match c.sqft with | some n => some n | none => r.sqft,
    lotSize := if numTruthy c.lotSize then c.lotSize else r.lotSize,
    images := if c.images.isEmpty then r.images else c.images }

/-- Processor `upsertProperty`: create if no match, update (and record the
price change) otherwise.  `Prisma.Decimal` of a NaN price throws, modelled
as `Except.error`. -/
def upsertProperty (clk : Clock) (c : ParsedProperty) (st : Store) :
    Except JStr (Store × UpsertResult) :=
  let existing := resolveExisting st c
  match c.price with
  | none => .error (str "DecimalError")
  | some q =>
    match existing with
    | some r =>
      let hist :=
        if r.price = q then st.history
        else st.history ++ [{ propertyId := r.id, oldPrice := r.price, newPrice := q,
                              changeDate := .nowAt clk.now }]
      let props := st.props.map (fun p => if p.id = r.id then updateRecord c q r else p)
      .ok ({ st with props := props, history := hist }, .updated)
    | none =>
      let r := createRecord c q st.nextId
      let hist :=
        match c.priceChange with
        | some h => st.history ++ [{ propertyId := r.id, oldPrice := q + h.amount,
                                     newPrice := q, changeDate := h.date }]
        | none => st.history
      .ok ({ nextId := st.nextId + 1, props := st.props ++ [r], history := hist }, .created)

structure RunResult where
  created : Nat := 0
  updated : Nat := 0
  errors : List JStr := []
deriving DecidableEq

/-- The per-candidate loop of `processPropertyEmails`: each candidate is
upserted, a failure is caught and recorded as a per-candidate error. -/
def processPropertyEmails (clk : Clock) (cands : List ParsedProperty) (st : Store) :
    Store × RunResult :=
  cands.foldl
    (fun acc c =>
      match upsertProperty clk c acc.1 with
      | .ok (st2, .created) => (st2, { acc.2 with created := acc.2.created + 1 })
      | .ok (st2, .updated) => (st2, { acc.2 with updated := acc.2.updated + 1 })
      | .error e =>
        (acc.1, { acc.2 with errors := acc.2.errors ++
          [(str "Error processing property ") ++ c.url ++ (str ": ") ++ e] }))
    (st, {})

/-! ### parser.ts: the document model

A cheerio document is abstracted to its anchor elements in document order.
For each anchor we record its `href` attribute, the result of
`closest("table[role='presentation'], table")` (`cardT`) and of
`closest("table, div, td")` (`cardB`); a card is its flattened text plus
the `src` of its first `img` (absent when there is no image or no src). -/

structure Card where
  text : JStr := []
  img : Option JStr := none
deriving DecidableEq

structure Anchor where
  href : Option JStr := none
  cardT : Option Card := none
  cardB : Option Card := none
deriving DecidableEq

abbrev Doc := List Anchor

/-- `$('a[href*=needle]')`: anchors whose href contains the substring. -/
def anchorsFor (needle : JStr) (doc : Doc) : List Anchor :=
  doc.filter (fun a => match a.href with | some h => containsL h needle | none => false)

/-! ### parser.ts: regular-expression patterns -/

def pricePat : List RItem :=
  [.lit (str "$"), .cls (fun c => c.isDigit || c == ',') 1 none]

/-- `/\d+\s+[^,]+,\s*[^,]+,\s*[A-Z]{2}(?:\s+\d{5})?/`. -/
def zillowAddrPat : List RItem :=
  [.cls Char.isDigit 1 none, .cls isWsChar 1 none,
   .cls (fun c => !(c == ',')) 1 none, .lit (str ","), .cls isWsChar 0 none,
   .cls (fun c => !(c == ',')) 1 none, .lit (str ","), .cls isWsChar 0 none,
   .cls Char.isUpper 2 (some 2),
   .grpOpt [(isWsChar, 1, none), (Char.isDigit, 5, some 5)]]

/-- `/\d+\s+[^,]+,\s*[^,]+,\s*[A-Z]{2}/`. -/
def redfinAddrPat : List RItem :=
  [.cls Char.isDigit 1 none, .cls isWsChar 1 none,
   .cls (fun c => !(c == ',')) 1 none, .lit (str ","), .cls isWsChar 0 none,
   .cls (fun c => !(c == ',')) 1 none, .lit (str ","), .cls isWsChar 0 none,
   .cls Char.isUpper 2 (some 2)]

/-- `/\d+\s+[^,\n]+(?:,|\n)\s*[^,\n]+(?:,|\n)\s*[A-Z]{2}(?:\s+\d{5})?/`. -/
def realtorAddrPat : List RItem :=
  [.cls Char.isDigit 1 none, .cls isWsChar 1 none,
   .cls (fun c => !(c == ',' || c == '\n')) 1 none,
   .cls (fun c => c == ',' || c == '\n') 1 (some 1), .cls isWsChar 0 none,
   .cls (fun c => !(c == ',' || c == '\n')) 1 none,
   .cls (fun c => c == ',' || c == '\n') 1 (some 1), .cls isWsChar 0 none,
   .cls Char.isUpper 2 (some 2),
   .grpOpt [(isWsChar, 1, none), (Char.isDigit, 5, some 5)]]

/-- `/[^,]+,\s*[^,]+,\s*[A-Z]{2}/`. -/
def landAddrPat : List RItem :=
  [.cls (fun c => !(c == ',')) 1 none, .lit (str ","), .cls isWsChar 0 none,
   .cls (fun c => !(c == ',')) 1 none, .lit (str ","), .cls isWsChar 0 none,
   .cls Char.isUpper 2 (some 2)]

/-- `/Price cut:\s*\$\d+K\s*\(\d+\/\d+\)/`. -/
def priceCutPat : List RItem :=
  [.lit (str "Price cut:"), .cls isWsChar 0 none, .lit (str "$"),
   .cls Char.isDigit 1 none, .lit (str "K"), .cls isWsChar 0 none,
   .lit (str "("), .cls Char.isDigit 1 none, .lit (str "/"),
   .cls Char.isDigit 1 none, .lit (str ")")]

/-! ### parser.ts: address clean-up replaces -/

/-- `replace(/^\d+\s*sqft\s*/i, "")`. -/
def stripSqftPfx (s : JStr) : JStr :=
  let d := s.takeWhile Char.isDigit
  if d.isEmpty then s else
  let r2 := (s.drop d.length).dropWhile isWsChar
  if startsWithCI r2 (str "sqft") then (r2.drop 4).dropWhile isWsChar else s

/-- `replace(/^\d+\s*\n+/g, "")` (`^` makes the global flag moot): greedy
`\s*` backtracks so that `\n+` takes the final newline run of the
whitespace that follows the digits. -/
def stripNumNl (s : JStr) : JStr :=
  let d := s.takeWhile Char.isDigit
  if d.isEmpty then s else
  let r1 := s.drop d.length
  let w := r1.takeWhile isWsChar
  if w.contains '\n' then
    let j := (w.length - 1) - (w.reverse.takeWhile (fun c => !(c == '\n'))).length
    r1.drop (j + 1)
  else s

/-- Earliest index of a case-insensitive occurrence of `needle`. -/
def findCI (needle : JStr) : JStr → Option Nat
  | [] => if needle.isEmpty then some 0 else none
  | c :: rest =>
    if startsWithCI (c :: rest) needle then some 0
    else (findCI needle rest).map (· + 1)

/-- `replace(/^\d+\s*bd.*?sqft\s*/is, "")`: lazy `.*?` reaches the earliest
`sqft`. -/
def stripBdSqft (s : JStr) : JStr :=
  let d := s.takeWhile Char.isDigit
  if d.isEmpty then s else
  let r2 := (s.drop d.length).dropWhile isWsChar
  if startsWithCI r2 (str "bd") then
    match findCI (str "sqft") (r2.drop 2) with
    | some i => (((r2.drop 2).drop i).drop 4).dropWhile isWsChar
    | none => s
  else s

/-- `replace(/^\d+\s*bed.*?sqft\s*/i, "")` as the Realtor variant; its
input has already had every newline replaced by a space, so the missing
dotall flag cannot be observed. -/
def stripBedSqft (s : JStr) : JStr :=
  let d := s.takeWhile Char.isDigit
  if d.isEmpty then s else
  let r2 := (s.drop d.length).dropWhile isWsChar
  if startsWithCI r2 (str "bed") then
    match findCI (str "sqft") (r2.drop 3) with
    | some i => (((r2.drop 3).drop i).drop 4).dropWhile isWsChar
    | none => s
  else s

/-- Does `/\d+\s+[A-Za-z]/` match at the start of `s`? -/
def streetStartAt (s : JStr) : Bool :=
  let d := s.takeWhile Char.isDigit
  if d.isEmpty then false else
  let r := s.drop d.length
  let w := r.takeWhile isWsChar
  if w.isEmpty then false else
  match r.drop w.length with
  | c :: _ => c.isAlpha
  | [] => false

def dropToStreetAux : JStr → Option JStr
  | [] => none
  | c :: rest => if streetStartAt (c :: rest) then some (c :: rest) else dropToStreetAux rest

/-- `replace(/^.*?(\d+\s+[A-Za-z])/s, "$1")`: drop everything before the
first street-number-then-letter position (no change when there is none). -/
def dropToStreet (s : JStr) : JStr := (dropToStreetAux s).getD s

/-- `replace(/^\d+\s*Sq\.\s*Ft\.\s*/i, "")` (the dots are literal). -/
def stripSqFtDot (s : JStr) : JStr :=
  let d := s.takeWhile Char.isDigit
  if d.isEmpty then s else
  let r2 := (s.drop d.length).dropWhile isWsChar
  if startsWithCI r2 (str "sq") then
    match r2.drop 2 with
    | '.' :: r3 =>
      let r4 := r3.dropWhile isWsChar
      if startsWithCI r4 (str "ft") then
        match r4.drop 2 with
        | '.' :: r5 => r5.dropWhile isWsChar
        | _ => s
      else s
    | _ => s
  else s

/-- The street-type alternation of the Realtor missing-comma fix, in JS
trial order (case-sensitive, no word boundaries). -/
def comAbbrevs : List JStr :=
  [str "St", str "Ave", str "Rd", str "Dr", str "Ct", str "Ln", str "Blvd",
   str "Way", str "Pl", str "Cir", str "Ter", str "Pkwy", str "Trl"]

def comTryAt (s : JStr) : Option (Nat × JStr) :=
  comAbbrevs.findSome? (fun w =>
    if startsWithL s w then
      match s.drop w.length with
      | c :: r2 =>
        if c.isUpper then
          let lows := r2.takeWhile Char.isLower
          if lows.isEmpty then none
          else some (w.length + 1 + lows.length, w ++ (str ", ") ++ c :: lows)
        else none
      | [] => none
    else none)

/-- `replace(/\b?(St|Ave|...)([A-Z][a-z]+)/, "$1, $2")` — first match
only. -/
def insertComma : JStr → JStr
  | [] => []
  | c :: rest =>
    match comTryAt (c :: rest) with
    | some (n, repl) => repl ++ (c :: rest).drop n
    | none => c :: insertComma rest

/-! ### parser.ts: the four source parsers -/

/-- Image extraction with the spacer/tracking-pixel filter
(Zillow/Realtor). -/
def imgFiltered (card : Card) : List JStr :=
  match card.img with
  | some i =>
    if !i.isEmpty && !containsL i (str "spacer") && !containsL i (str "pixel") then [i] else []
  | none => []

/-- Image extraction with only the truthiness check (Redfin/Land). -/
def imgPlain (card : Card) : List JStr :=
  match card.img with
  | some i => if !i.isEmpty then [i] else []
  | none => []

def zillowClean (m : JStr) : JStr :=
  trimL (dropToStreet (stripBdSqft (stripNumNl (stripSqftPfx m))))

/-- The pure per-anchor extraction of `parseZillowEmail`, hoisted out of
the seen-url bookkeeping (it reads no mutable state, so evaluating it
before the seen-url check cannot change behaviour).  `none`: the anchor is
skipped without touching `seenUrls`; `some (url, none)`: the anchor is a
priced-and-addressed card whose url enters `seenUrls` but whose
`parseAddress` call threw (the per-anchor catch swallows it);
`some (url, some (addr, price, specs, images))`: a full extraction. -/
def zillowAttempt (a : Anchor) :
    Option (JStr × Option (Addr × Option ℚ × Specs × List JStr)) :=
  match a.href with
  | none => none
  | some url =>
    if url.isEmpty then none
    else if containsL url (str "unsubscribe") || containsL url (str "settings") ||
        containsL url (str "_web_") then none
    else
      match a.cardT with
      | none => none
      | some card =>
        let text := card.text
        match reFirst pricePat text, reFirst zillowAddrPat text with
        | some priceM, some addrM =>
          some (url,
            match parseAddress (zillowClean addrM) with
            | .error _ => none
            | .ok addr => some (addr, parsePrice priceM, parseSpecs text, imgFiltered card))
        | _, _ => none

/-- One anchor of `parseZillowEmail`; state = (seenUrls, collected
candidates). -/
def zillowStep (source : JStr) (st : List JStr × List ParsedProperty) (a : Anchor) :
    List JStr × List ParsedProperty :=
  match zillowAttempt a with
  | none => st
  | some (url, data) =>
    if st.1.contains url then st
    else
      match data with
      | none => (st.1 ++ [url], st.2)
      | some (addr, price, specs, images) =>
        (st.1 ++ [url], st.2 ++ [{
          street := addr.street, city := addr.city, state := addr.state, zip := addr.zip,
          source := source, sourceId := url, url := url, price := price,
          beds := specs.beds, baths := specs.baths, sqft := specs.sqft,
          images := images }])

def parseZillowEmail (source : JStr) (doc : Doc) : List ParsedProperty :=
  ((anchorsFor (str "zillow.com") doc).foldl (zillowStep source) ([], [])).2

/-- One anchor of `parseRedfinEmail` (no seen-url tracking). -/
def redfinStep (clk : Clock) (source : JStr) (acc : List ParsedProperty) (a : Anchor) :
    List ParsedProperty :=
  match a.href with
  | none => acc
  | some url =>
    if url.isEmpty || !containsL url (str "/home/") then acc
    else
      let card := a.cardB.getD {}
      let text := card.text
      match reFirst pricePat text with
      | none => acc
      | some priceM =>
        let price := parsePrice priceM
        let priceChange :=
          match reFirst priceCutPat text with
          | some m => parsePriceChange clk.curYear m
          | none => none
        match reFirst redfinAddrPat text with
        | none => acc
        | some addrM =>
          let a1 := trimL (stripSqFtDot addrM)
          let a2 := collapseWs (replNlRuns a1)
          match parseAddress a2 with
          | .error _ => acc
          | .ok addr =>
            let specs := parseSpecs text
            let sourceId := extractListingId url source
            let isNew := containsL (lowerL text) (str "new construction")
            acc ++ [{
              street := addr.street, city := addr.city, state := addr.state, zip := addr.zip,
              source := source, sourceId := sourceId, url := url, price := price,
              priceChange := priceChange,
              beds := specs.beds, baths := specs.baths, sqft := specs.sqft,
              images := imgPlain card,
              status := if isNew then some (str "New construction") else none }]

def parseRedfinEmail (clk : Clock) (source : JStr) (doc : Doc) : List ParsedProperty :=
  (anchorsFor (str "redfin.com") doc).foldl (redfinStep clk source) []

def realtorClean (m : JStr) : JStr :=
  insertComma (trimL (dropToStreet (stripBedSqft (collapseWs (replNlRuns m)))))

/-- The pure per-anchor extraction of `parseRealtorEmail`, hoisted out of
the seen-url bookkeeping exactly like `zillowAttempt`. -/
def realtorAttempt (a : Anchor) :
    Option (JStr × Option (Addr × Option ℚ × Specs × List JStr)) :=
  match a.href with
  | none => none
  | some url =>
    if url.isEmpty then none
    else if containsL url (str "unsubscribe") || containsL url (str "privacy") ||
        containsL (lowerL url) (str "keep searching") then none
    else
      match a.cardT with
      | none => none
      | some card =>
        let text := card.text
        match reFirst pricePat text, reFirst realtorAddrPat text with
        | some priceM, some addrM =>
          some (url,
            match parseAddress (realtorClean addrM) with
            | .error _ => none
            | .ok addr => some (addr, parsePrice priceM, parseSpecs text, imgFiltered card))
        | _, _ => none

/-- One anchor of `parseRealtorEmail`; state = (seenUrls, collected
candidates). -/
def realtorStep (source : JStr) (st : List JStr × List ParsedProperty) (a : Anchor) :
    List JStr × List ParsedProperty :=
  match realtorAttempt a with
  | none => st
  | some (url, data) =>
    if st.1.contains url then st
    else
      match data with
      | none => (st.1 ++ [url], st.2)
      | some (addr, price, specs, images) =>
        (st.1 ++ [url], st.2 ++ [{
          street := addr.street, city := addr.city, state := addr.state, zip := addr.zip,
          source := source, sourceId := url, url := url, price := price,
          beds := specs.beds, baths := specs.baths, sqft := specs.sqft,
          images := images }])

def realtorAnchors (doc : Doc) : List Anchor :=
  doc.filter (fun a =>
    match a.href with
    | some h => containsL h (str "realtor.com") || containsL h (str "move.com")
    | none => false)

def parseRealtorEmail (source : JStr) (doc : Doc) : List ParsedProperty :=
  ((realtorAnchors doc).foldl (realtorStep source) ([], [])).2

/-- One anchor of `parseLandEmail` (no seen-url tracking). -/
def landStep (source : JStr) (acc : List ParsedProperty) (a : Anchor) :
    List ParsedProperty :=
  match a.href with
  | none => acc
  | some url =>
    if url.isEmpty then acc
    else
      let card := a.cardB.getD {}
      let text := card.text
      match reFirst pricePat text with
      | none => acc
      | some priceM =>
        let price := parsePrice priceM
        match reFirst landAddrPat text with
        | none => acc
        | some addrM =>
          match parseAddress addrM with
          | .error _ => acc
          | .ok addr =>
            let lotSize := (scanNumUnit (fun c => c.isDigit || c == '.')
              (fun s => startsWithCI s (str "acre")) text).bind parseFloatQ
            acc ++ [{
              street := addr.street, city := addr.city, state := addr.state, zip := addr.zip,
              source := source, sourceId := extractListingId url source, url := url,
              price := price, lotSize := lotSize, images := imgPlain card,
              propertyType := some .LAND }]

def parseLandEmail (source : JStr) (doc : Doc) : List ParsedProperty :=
  (anchorsFor (str "land.com") doc).foldl (landStep source) []

structure EmailParserResult where
  properties : List ParsedProperty := []
  errors : List JStr := []
deriving DecidableEq

/-- parser.ts `parsePropertyEmail`: detect the source from the sender and
dispatch; an unknown source yields no candidates and one error. -/
def parsePropertyEmail (clk : Clock) (doc : Doc) (fromEmail : JStr) : EmailParserResult :=
  let source := determineSource fromEmail none
  if source = str "zillow" then { properties := parseZillowEmail source doc }
  else if source = str "redfin" then { properties := parseRedfinEmail clk source doc }
  else if source = str "realtor" then { properties := parseRealtorEmail source doc }
  else if source = str "land" then { properties := parseLandEmail source doc }
  else { errors := [(str "Unknown email source: ") ++ fromEmail] }

/-- Modelled from the spec: the core-exposed `run(messages)` entry point
(§4.6, §6).  In the repository the per-message loop lives inside the IMAP
callback of `fetchPropertyEmails` (mailbox transport, outside the
specified core), which hands the extracted candidates to
`processPropertyEmails`; per the spec, `run` parses each (sender, html)
message, collects parser-reported errors, and applies the resolve/upsert
step to every extracted candidate, aggregating counts and errors. -/
def run (clk : Clock) (msgs : List (JStr × Doc)) (st : Store) : Store × RunResult :=
  msgs.foldl
    (fun acc m =>
      let pr := parsePropertyEmail clk m.2 m.1
      let res := processPropertyEmails clk pr.properties acc.1
      (res.1, { created := acc.2.created + res.2.created,
                updated := acc.2.updated + res.2.updated,
                errors := acc.2.errors ++ pr.errors ++ res.2.errors }))
    (st, {})

/-! ### Shared helper lemmas about the upsert engine -/

theorem resolveExisting_empty (c : ParsedProperty) : resolveExisting emptyStore c = none := by
  simp [resolveExisting, findBySourceAndSourceId, findByCityState, emptyStore]

theorem resolveExisting_of_find (st : Store) (c : ParsedProperty) (r : PropertyRecord)
    (h : findBySourceAndSourceId st c.source c.sourceId = some r) :
    resolveExisting st c = some r := by
  simp [resolveExisting, h]

theorem resolveExisting_of_find_none (st : Store) (c : ParsedProperty)
    (h : findBySourceAndSourceId st c.source c.sourceId = none) :
    resolveExisting st c =
      (findByCityState st c.city c.state).find? (fun p =>
        normalizeAddress p.street p.city p.state ==
          normalizeAddress c.street c.city c.state) := by
  simp [resolveExisting, h]

theorem upsertProperty_update (clk : Clock) (c : ParsedProperty) (q : ℚ) (st : Store)
    (r : PropertyRecord) (hq : c.price = some q) (hres : resolveExisting st c = some r) :
    upsertProperty clk c st =
      .ok ({ st with
        props := st.props.map (fun p => if p.id = r.id then updateRecord c q r else p),
        history :=
          if r.price = q then st.history
          else st.history ++ [{ propertyId := r.id, oldPrice := r.price, newPrice := q,
                                changeDate := .nowAt clk.now }] }, .updated) := by
  simp only [upsertProperty, hres, hq]

theorem upsertProperty_create (clk : Clock) (c : ParsedProperty) (q : ℚ) (st : Store)
    (hq : c.price = some q) (hres : resolveExisting st c = none) :
    upsertProperty clk c st =
      .ok ({ nextId := st.nextId + 1,
             props := st.props ++ [createRecord c q st.nextId],
             history :=
               (match c.priceChange with
                | some h => st.history ++ [{ propertyId := st.nextId, oldPrice := q + h.amount,
                                             newPrice := q, changeDate := h.date }]
                | none => st.history) }, .created) := by
  simp only [upsertProperty, hres, hq, createRecord]

/-! ### C5 -/

/-- C5: on Create, the new PropertyRecord is persisted, and a backdated
PriceHistoryEntry with oldPrice = price + hint.amount, newPrice = price and
changeDate = hint.date is appended exactly when the candidate carries a
price-change hint; without a hint no history entry is created. -/
theorem create_priceHint_history (clk : Clock) (c : ParsedProperty) (q : ℚ) (st : Store)
    (hq : c.price = some q) (hres : resolveExisting st c = none) :
    ∃ st2, upsertProperty clk c st = .ok (st2, .created) ∧
      st2.props = st.props ++ [createRecord c q st.nextId] ∧
      (createRecord c q st.nextId).id = st.nextId ∧
      (∀ h, c.priceChange = some h →
        st2.history = st.history ++ [{ propertyId := st.nextId, oldPrice := q + h.amount,
                                       newPrice := q, changeDate := h.date }]) ∧
      (c.priceChange = none → st2.history = st.history) := by
  refine ⟨_, upsertProperty_create clk c q st hq hres, rfl, rfl, ?_, ?_⟩
  · intro h hh
    simp [hh]
  · intro hh
    simp [hh]

def clkW : Clock := { now := 0, curYear := 2025 }

def c5w : ParsedProperty :=
  { source := str "redfin", sourceId := str "1", url := str "u",
    street := str "1 A St", city := str "B", state := str "SC",
    price := some 200000, priceChange := some { amount := 2000, date := .ymd 2025 10 5 } }

theorem create_priceHint_history_witness :
    c5w.price = some 200000 ∧ resolveExisting emptyStore c5w = none ∧
    ∃ st2, upsertProperty clkW c5w emptyStore = .ok (st2, .created) ∧
      st2.history = [{ propertyId := 0, oldPrice := 202000, newPrice := 200000,
                       changeDate := .ymd 2025 10 5 }] := by
  refine ⟨by decide, by decide, ?_⟩
  obtain ⟨st2, h1, _, _, h4, _⟩ :=
    create_priceHint_history clkW c5w 200000 emptyStore (by decide) (by decide)
  refine ⟨st2, h1, ?_⟩
  rw [h4 { amount := 2000, date := .ymd 2025 10 5 } rfl]
  norm_num [emptyStore]

/-! ### C10 -/

/-- C10: when a candidate matches an existing record only through the
address fallback, the update overwrites source, sourceId, url, street,
city, state, zip (when supplied), price and propertyType (when supplied)
with the candidate's values on the same stored row, so the record's
identity key migrates to the candidate's. -/
theorem fallback_update_identity_migration (clk : Clock) (c : ParsedProperty) (q : ℚ)
    (st : Store) (r : PropertyRecord) (hq : c.price = some q)
    (_hfind : findBySourceAndSourceId st c.source c.sourceId = none)
    (hres : resolveExisting st c = some r) :
    ∃ st2, upsertProperty clk c st = .ok (st2, .updated) ∧
      st2.props = st.props.map (fun p => if p.id = r.id then updateRecord c q r else p) ∧
      (updateRecord c q r).id = r.id ∧
      (updateRecord c q r).source = c.source ∧
      (updateRecord c q r).sourceId = c.sourceId ∧
      (updateRecord c q r).url = c.url ∧
      (updateRecord c q r).street = c.street ∧
      (updateRecord c q r).city = c.city ∧
      (updateRecord c q r).state = c.state ∧
      (updateRecord c q r).price = q ∧
      (∀ z, c.zip = some z → (updateRecord c q r).zip = some z) ∧
      (∀ pt, c.propertyType = some pt → (updateRecord c q r).propertyType = pt) := by
  refine ⟨_, upsertProperty_update clk c q st r hq hres,
    rfl, rfl, rfl, rfl, rfl, rfl, rfl, rfl, rfl, ?_, ?_⟩
  · intro z hz
    simp [updateRecord, hz]
  · intro pt hpt
    simp [updateRecord, hpt]

def r10 : PropertyRecord :=
  { id := 0, street := str "123 North Main Street", city := str "Anytown", state := str "CA",
    source := str "zillow", sourceId := str "u1", url := str "u1", price := 100 }

def st10 : Store := { nextId := 1, props := [r10], history := [] }

def c10 : ParsedProperty :=
  { street := str "123 Main St", city := str "Anytown", state := str "CA",
    zip := some (str "90001"), source := str "zillow", sourceId := str "u2", url := str "u2",
    price := some 100, propertyType := some .CONDO }

theorem fallback_update_identity_migration_witness :
    c10.price = some 100 ∧
    findBySourceAndSourceId st10 c10.source c10.sourceId = none ∧
    resolveExisting st10 c10 = some r10 ∧
    (updateRecord c10 100 r10).sourceId = c10.sourceId ∧
    (updateRecord c10 100 r10).zip = some (str "90001") := by
  refine ⟨by decide, by decide, by decide, ?_, ?_⟩
  · exact (fallback_update_identity_migration clkW c10 100 st10 r10 (by decide)
      (by decide) (by decide)).choose_spec.2.2.2.2.1
  · exact (fallback_update_identity_migration clkW c10 100 st10 r10 (by decide)
      (by decide) (by decide)).choose_spec.2.2.2.2.2.2.2.2.2.2.1 (str "90001") rfl

/-! ### C4 -/

/-- C4 (amended): on Update, beds/sqft are overwritten only when the
candidate supplies a value, baths only when it supplies a nonzero value,
images only when non-empty, and the stored value is retained otherwise;
agent and builder are never modified by an update regardless of the
candidate's values; status is recomputed from the candidate's raw status
text when present (substring "pending" -> Pending, "sold" -> Sold,
"off" -> OffMarket, else Active) but is reset to the Active default, not
retained, when the candidate carries no status text.  In particular an
update with sqft absent leaves a stored sqft untouched. -/
theorem updateMerge_fields (clk : Clock) (c : ParsedProperty) (q : ℚ) (st : Store)
    (r : PropertyRecord) (hq : c.price = some q) (hres : resolveExisting st c = some r) :
    ∃ st2, upsertProperty clk c st = .ok (st2, .updated) ∧
      st2.props = st.props.map (fun p => if p.id = r.id then updateRecord c q r else p) ∧
      (updateRecord c q r).beds = (match c.beds with | some b => some b | none => r.beds) ∧
      (updateRecord c q r).baths = (if numTruthy c.baths then c.baths else r.baths) ∧
      (updateRecord c q r).sqft = (match c.sqft with | some n => some n | none => r.sqft) ∧
      (c.sqft = none → (updateRecord c q r).sqft = r.sqft) ∧
      (updateRecord c q r).images = (if c.images.isEmpty then r.images else c.images) ∧
      (updateRecord c q r).agent = r.agent ∧
      (updateRecord c q r).builder = r.builder ∧
      (∀ s, c.status = some s → (updateRecord c q r).status = mapStatus s) ∧
      (c.status = none → (updateRecord c q r).status = .ACTIVE) ∧
      (∀ s, containsL (lowerL s) (str "pending") = true → mapStatus s = .PENDING) ∧
      (∀ s, containsL (lowerL s) (str "pending") = false →
        containsL (lowerL s) (str "sold") = true → mapStatus s = .SOLD) ∧
      (∀ s, containsL (lowerL s) (str "pending") = false →
        containsL (lowerL s) (str "sold") = false →
        containsL (lowerL s) (str "off") = true → mapStatus s = .OFF_MARKET) ∧
      (∀ s, containsL (lowerL s) (str "pending") = false →
        containsL (lowerL s) (str "sold") = false →
        containsL (lowerL s) (str "off") = false → mapStatus s = .ACTIVE) := by
  refine ⟨_, upsertProperty_update clk c q st r hq hres, rfl, rfl, rfl, rfl, ?_, rfl, rfl, rfl,
    ?_, ?_, ?_, ?_, ?_, ?_⟩
  · intro hn
    simp [updateRecord, hn]
  · intro s hs
    simp [updateRecord, hs]
  · intro hn
    simp [updateRecord, hn]
  · intro s hs
    simp [mapStatus, hs]
  · intro s h1 h2
    simp [mapStatus, h1, h2]
  · intro s h1 h2 h3
    simp [mapStatus, h1, h2, h3]
  · intro s h1 h2 h3
    simp [mapStatus, h1, h2, h3]

def r4 : PropertyRecord :=
  { id := 0, street := str "1 A St", city := str "B", state := str "SC",
    source := str "zillow", sourceId := str "z1", url := str "u",
    status := .PENDING, price := 5, sqft := some 1500, agent := some (str "Alice") }

def st4 : Store := { nextId := 1, props := [r4], history := [] }

def c4 : ParsedProperty :=
  { street := str "1 A St", city := str "B", state := str "SC",
    source := str "zillow", sourceId := str "z1", url := str "u",
    price := some 5, agent := some (str "Bob") }

theorem updateMerge_fields_witness :
    c4.price = some 5 ∧ resolveExisting st4 c4 = some r4 ∧
    c4.sqft = none ∧ r4.sqft = some 1500 ∧
    (updateRecord c4 5 r4).sqft = r4.sqft ∧
    (updateRecord c4 5 r4).agent = r4.agent := by
  refine ⟨by decide, by decide, rfl, rfl, ?_, ?_⟩
  · exact (updateMerge_fields clkW c4 5 st4 r4 (by decide)
      (by decide)).choose_spec.2.2.2.2.2.1 rfl
  · exact (updateMerge_fields clkW c4 5 st4 r4 (by decide)
      (by decide)).choose_spec.2.2.2.2.2.2.2.1

/-- C4 counterexample: a candidate with no status text updating a record
stored as Pending leaves the record Active (not Pending as claimed), and a
candidate-supplied agent does not overwrite the stored agent. -/
theorem update_status_agent_counterexample :
    c4.status = none ∧ r4.status = .PENDING ∧
    c4.agent = some (str "Bob") ∧ r4.agent = some (str "Alice") ∧
    (upsertProperty clkW c4 st4).toOption.map (fun x => x.1.props.map (fun p => p.status)) =
      some [PStatus.ACTIVE] ∧
    (upsertProperty clkW c4 st4).toOption.map (fun x => x.1.props.map (fun p => p.agent)) =
      some [some (str "Alice")] := by
  decide

/-! ### C6 -/

/-- C6: address normalization is a pure function of (street, city, state)
that lowercases, collapses street-type words to their abbreviations,
strips directional tokens and unit fragments, removes punctuation,
collapses whitespace and joins as street|city|state; addresses differing
only in these surface forms normalize equal, in particular the claimed
"123 North Main Street" / "123 Main St" pair. -/
theorem normalizeAddress_equivalences :
    normalizeAddress (str "123 North Main Street") (str "Anytown") (str "CA") =
      normalizeAddress (str "123 Main St") (str "Anytown") (str "CA") ∧
    normalizeAddress (str "123 North Main Street") (str "Anytown") (str "CA") =
      str "123 main st|anytown|ca" ∧
    normalizeAddress (str "10 Oak Street Unit 5B") (str "Anytown") (str "CA") =
      normalizeAddress (str "10 Oak St") (str "Anytown") (str "CA") ∧
    normalizeAddress (str "10 Oak St.") (str "ANYTOWN") (str "ca") =
      normalizeAddress (str "10  Oak   St") (str "Anytown") (str "CA") ∧
    normalizeAddress (str "10 W Oak Ave") (str "Anytown") (str "CA") =
      normalizeAddress (str "10 Oak Avenue") (str "Anytown") (str "CA") := by
  decide

/-! ### C1 -/

/-- C1: resolution tries the (source, sourceId) identity lookup first and
falls back to scanning the records with case-insensitively equal city and
state for the first whose normalized address key equals the candidate's;
consequently two candidates with different sourceId but equal normalized
address and (case-insensitively) equal city and state resolve to the same
PropertyRecord — one create, then one update, one stored record. -/
theorem upsert_addressFallback_dedup (clk : Clock) (c1 c2 : ParsedProperty) (p1 p2 : ℚ)
    (h1 : c1.price = some p1) (h2 : c2.price = some p2)
    (hId : c1.sourceId ≠ c2.sourceId)
    (hN : normalizeAddress c2.street c2.city c2.state =
      normalizeAddress c1.street c1.city c1.state)
    (hCity : lowerL c2.city = lowerL c1.city) (hState : lowerL c2.state = lowerL c1.state) :
    (∀ st c r, findBySourceAndSourceId st c.source c.sourceId = some r →
      resolveExisting st c = some r) ∧
    (∀ st c, findBySourceAndSourceId st c.source c.sourceId = none →
      resolveExisting st c = (findByCityState st c.city c.state).find? (fun p =>
        normalizeAddress p.street p.city p.state ==
          normalizeAddress c.street c.city c.state)) ∧
    (processPropertyEmails clk [c1, c2] emptyStore).1.props.length = 1 ∧
    (processPropertyEmails clk [c1, c2] emptyStore).2.created = 1 ∧
    (processPropertyEmails clk [c1, c2] emptyStore).2.updated = 1 := by
  refine ⟨resolveExisting_of_find, resolveExisting_of_find_none, ?_⟩
  have hb : (c1.sourceId == c2.sourceId) = false := beq_eq_false_iff_ne.mpr hId
  have e1 := upsertProperty_create clk c1 p1 emptyStore h1 (resolveExisting_empty c1)
  have hres2 : ∀ (n : Nat) (hist : List PriceHistoryEntry),
      resolveExisting { nextId := n, props := [createRecord c1 p1 0], history := hist } c2 =
        some (createRecord c1 p1 0) := by
    intro n hist
    simp [resolveExisting, findBySourceAndSourceId, findByCityState, createRecord,
      List.find?, List.filter, hb, hCity, hState, hN]
  have e2 := fun n hist =>
    upsertProperty_update clk c2 p2 { nextId := n, props := [createRecord c1 p1 0], history := hist }
      (createRecord c1 p1 0) h2 (hres2 n hist)
  simp only [processPropertyEmails, List.foldl, emptyStore] at e1 ⊢
  rw [e1]
  simp only [List.nil_append]
  rw [e2]
  simp

/-- C1 witness data: two Zillow-style candidates with distinct tracking
urls but the same normalized address. -/
def c1w : ParsedProperty :=
  { street := str "123 North Main Street", city := str "Anytown", state := str "CA",
    source := str "zillow", sourceId := str "https://t.zillow.com/a1",
    url := str "https://t.zillow.com/a1", price := some 100 }

def c2w : ParsedProperty :=
  { street := str "123 Main St", city := str "Anytown", state := str "CA",
    source := str "zillow", sourceId := str "https://t.zillow.com/b2",
    url := str "https://t.zillow.com/b2", price := some 90 }

theorem upsert_addressFallback_dedup_witness :
    c1w.sourceId ≠ c2w.sourceId ∧
    normalizeAddress c2w.street c2w.city c2w.state =
      normalizeAddress c1w.street c1w.city c1w.state ∧
    (processPropertyEmails clkW [c1w, c2w] emptyStore).1.props.length = 1 ∧
    (processPropertyEmails clkW [c1w, c2w] emptyStore).2.created = 1 ∧
    (processPropertyEmails clkW [c1w, c2w] emptyStore).2.updated = 1 := by
  have h := upsert_addressFallback_dedup clkW c1w c2w 100 90 (by decide) (by decide)
    (by decide) (by decide) (by decide) (by decide)
  exact ⟨by decide, by decide, h.2.2.1, h.2.2.2.1, h.2.2.2.2⟩

/-! ### C2 -/

/-- C2: on Update the stored price is compared to the candidate's price by
exact value, and a PriceHistoryEntry {oldPrice := stored, newPrice :=
candidate, changeDate := now} is appended iff they differ; running the
pipeline once and then again with only the price changed for the same
identity yields exactly one additional entry with oldPrice the first run's
price and newPrice the second's. -/
theorem update_priceHistory_iff (clk1 clk2 : Clock) (c : ParsedProperty) (p1 p2 : ℚ)
    (hne : p1 ≠ p2) :
    (∀ (st : Store) (cc : ParsedProperty) (q : ℚ) (r : PropertyRecord),
      cc.price = some q → resolveExisting st cc = some r →
      ∃ st2, upsertProperty clk2 cc st = .ok (st2, .updated) ∧
        st2.history = (if r.price = q then st.history
          else st.history ++ [{ propertyId := r.id, oldPrice := r.price, newPrice := q,
                                changeDate := .nowAt clk2.now }])) ∧
    (∀ st1 res1,
      processPropertyEmails clk1 [{ c with price := some p1 }] emptyStore = (st1, res1) →
      ∀ st2 res2,
        processPropertyEmails clk2 [{ c with price := some p2 }] st1 = (st2, res2) →
        st2.history = st1.history ++ [{ propertyId := 0, oldPrice := p1, newPrice := p2,
                                        changeDate := .nowAt clk2.now }] ∧
        res2.created = 0 ∧ res2.updated = 1) := by
  constructor
  · intro st cc q r hq hres
    exact ⟨_, upsertProperty_update clk2 cc q st r hq hres, rfl⟩
  · intro st1 res1 hrun1 st2 res2 hrun2
    have e1 := upsertProperty_create clk1 { c with price := some p1 } p1 emptyStore rfl
      (resolveExisting_empty _)
    simp only [processPropertyEmails, List.foldl] at hrun1
    rw [e1] at hrun1
    simp only [] at hrun1
    obtain ⟨hst1, hres1⟩ := Prod.mk.injEq .. |>.mp hrun1
    subst hst1
    subst hres1
    have hres2 : resolveExisting
        ({ nextId := emptyStore.nextId + 1,
           props := emptyStore.props ++ [createRecord { c with price := some p1 } p1 emptyStore.nextId],
           history :=
             (match ({ c with price := some p1 } : ParsedProperty).priceChange with
              | some h => emptyStore.history ++
                  [{ propertyId := emptyStore.nextId, oldPrice := p1 + h.amount,
                     newPrice := p1, changeDate := h.date }]
              | none => emptyStore.history) } : Store) { c with price := some p2 } =
        some (createRecord { c with price := some p1 } p1 emptyStore.nextId) := by
      apply resolveExisting_of_find
      simp [findBySourceAndSourceId, createRecord, List.find?, emptyStore]
    have e2 := upsertProperty_update clk2 { c with price := some p2 } p2 _
      (createRecord { c with price := some p1 } p1 emptyStore.nextId) rfl hres2
    simp only [processPropertyEmails, List.foldl] at hrun2
    rw [e2] at hrun2
    simp only [] at hrun2
    obtain ⟨hst2, hres2'⟩ := Prod.mk.injEq .. |>.mp hrun2
    subst hst2
    subst hres2'
    refine ⟨?_, by simp, by simp⟩
    simp [createRecord, hne, emptyStore]

def c2cand : ParsedProperty :=
  { street := str "1 A St", city := str "B", state := str "SC",
    source := str "redfin", sourceId := str "5", url := str "u" }

theorem update_priceHistory_iff_witness :
    (100 : ℚ) ≠ 90 ∧
    (processPropertyEmails clkW [{ c2cand with price := some 90 }]
        (processPropertyEmails clkW [{ c2cand with price := some 100 }] emptyStore).1).1.history =
      (processPropertyEmails clkW [{ c2cand with price := some 100 }] emptyStore).1.history ++
        [{ propertyId := 0, oldPrice := 100, newPrice := 90, changeDate := .nowAt clkW.now }] := by
  refine ⟨by decide, ?_⟩
  exact ((update_priceHistory_iff clkW clkW c2cand 100 90 (by decide)).2 _ _ rfl _ _ rfl).1

/-! ### C3 -/

/-- C3 (amended): processing the same candidate twice with an unchanged
price is idempotent — after the second pass the store holds exactly one
PropertyRecord, the second pass creates nothing, updates once and appends
no history; the history after both passes is empty when the candidate
carries no price-change hint, and consists of exactly the one entry
synthesized at creation when it does. -/
theorem processTwice_idempotent (clk1 clk2 : Clock) (c : ParsedProperty) (q : ℚ)
    (hq : c.price = some q)
    (st1 : Store) (res1 : RunResult)
    (hrun1 : processPropertyEmails clk1 [c] emptyStore = (st1, res1))
    (st2 : Store) (res2 : RunResult)
    (hrun2 : processPropertyEmails clk2 [c] st1 = (st2, res2)) :
    st2.props.length = 1 ∧
    st2.history = st1.history ∧
    st1.history.length = (match c.priceChange with | some _ => 1 | none => 0) ∧
    (c.priceChange = none → st2.history = []) ∧
    res2.created = 0 ∧ res2.updated = 1 := by
  have e1 := upsertProperty_create clk1 c q emptyStore hq (resolveExisting_empty _)
  simp only [processPropertyEmails, List.foldl] at hrun1
  rw [e1] at hrun1
  simp only [] at hrun1
  obtain ⟨hst1, hres1⟩ := Prod.mk.injEq .. |>.mp hrun1
  subst hst1
  subst hres1
  have hres2 : resolveExisting
      ({ nextId := emptyStore.nextId + 1,
         props := emptyStore.props ++ [createRecord c q emptyStore.nextId],
         history :=
           (match c.priceChange with
            | some h => emptyStore.history ++
                [{ propertyId := emptyStore.nextId, oldPrice := q + h.amount,
                   newPrice := q, changeDate := h.date }]
            | none => emptyStore.history) } : Store) c =
      some (createRecord c q emptyStore.nextId) := by
    apply resolveExisting_of_find
    simp [findBySourceAndSourceId, createRecord, List.find?, emptyStore]
  have e2 := upsertProperty_update clk2 c q _ (createRecord c q emptyStore.nextId) hq hres2
  simp only [processPropertyEmails, List.foldl] at hrun2
  rw [e2] at hrun2
  simp only [] at hrun2
  obtain ⟨hst2, hres2'⟩ := Prod.mk.injEq .. |>.mp hrun2
  subst hst2
  subst hres2'
  have hpr : (createRecord c q emptyStore.nextId).price = q := rfl
  refine ⟨by simp [emptyStore], by simp [hpr], ?_, ?_, by simp, by simp⟩
  · cases hc : c.priceChange <;> simp [hc, emptyStore]
  · intro hc
    simp [hc, emptyStore, createRecord]

theorem processTwice_idempotent_witness :
    (processPropertyEmails clkW [{ c2cand with price := some 7 }]
        (processPropertyEmails clkW [{ c2cand with price := some 7 }] emptyStore).1).1.props.length = 1 ∧
    (processPropertyEmails clkW [{ c2cand with price := some 7 }]
        (processPropertyEmails clkW [{ c2cand with price := some 7 }] emptyStore).1).1.history = [] := by
  have h := processTwice_idempotent clkW clkW { c2cand with price := some 7 } 7 rfl
    _ _ rfl _ _ rfl
  exact ⟨h.1, h.2.2.2.1 rfl⟩

/-- A Redfin alert anchor whose card carries a price-cut hint. -/
def rfAnchor : Anchor :=
  { href := some (str "https://redfin.com/SC/F/x/home/12345678"),
    cardB := some { text := str "1002 Pitty Pat Dr, Florence, SC $200,000 Price cut: $2K (11/5)" } }

set_option maxRecDepth 10000 in
/-- C3 counterexample: running the pipeline twice on the same Redfin
message (price unchanged) leaves one PropertyRecord but ONE
PriceHistoryEntry — the entry synthesized from the message's price-change
hint at creation — not the zero rows the claim demands. -/
theorem run_twice_priceHint_counterexample :
    (run clkW [(str "alerts@redfin.com", [rfAnchor])]
        (run clkW [(str "alerts@redfin.com", [rfAnchor])] emptyStore).1).1.props.length = 1 ∧
    (run clkW [(str "alerts@redfin.com", [rfAnchor])]
        (run clkW [(str "alerts@redfin.com", [rfAnchor])] emptyStore).1).1.history.length = 1 := by
  decide

/-! ### C7 -/

/-- C7: parseAddress fails exactly when its input has fewer than 2
comma-delimited segments; with exactly 2 segments it splits the second on
whitespace, consumes a trailing 5-digit token as zip when present, takes
the then-last token as state and the remaining prefix as city; with 3+
segments it takes the third segment (whitespace-split and rejoined) as
state, extracting a trailing 5-digit zip from it when one follows at least
one other token. -/
theorem parseAddress_spec (address : JStr) :
    ((parseAddress address).isOk = false ↔
      ((splitComma (trimL address)).map trimL).length < 2) ∧
    (∀ s0 s1, (splitComma (trimL address)).map trimL = [s0, s1] →
      (isZip5 (((jsSplitWsT (trimL s1)).getLast?).getD []) = true →
        parseAddress address = .ok
          { street := s0,
            city := joinSp (jsSplitWsT (trimL s1)).dropLast.dropLast,
            state := (((jsSplitWsT (trimL s1)).dropLast.getLast?).getD []),
            zip := some (((jsSplitWsT (trimL s1)).getLast?).getD []) }) ∧
      (isZip5 (((jsSplitWsT (trimL s1)).getLast?).getD []) = false →
        parseAddress address = .ok
          { street := s0,
            city := joinSp (jsSplitWsT (trimL s1)).dropLast,
            state := (((jsSplitWsT (trimL s1)).getLast?).getD []),
            zip := none })) ∧
    (∀ s0 s1 s2 rest, (splitComma (trimL address)).map trimL = s0 :: s1 :: s2 :: rest →
      ((1 < (jsSplitWsT (trimL s2)).length ∧
          isZip5 (((jsSplitWsT (trimL s2)).getLast?).getD []) = true) →
        parseAddress address = .ok
          { street := s0, city := s1,
            state := joinSp (jsSplitWsT (trimL s2)).dropLast,
            zip := some (((jsSplitWsT (trimL s2)).getLast?).getD []) }) ∧
      (¬(1 < (jsSplitWsT (trimL s2)).length ∧
          isZip5 (((jsSplitWsT (trimL s2)).getLast?).getD []) = true) →
        parseAddress address = .ok
          { street := s0, city := s1,
            state := joinSp (jsSplitWsT (trimL s2)), zip := none })) := by
  refine ⟨?_, ?_, ?_⟩
  · simp only [parseAddress]
    split_ifs with h1 h2 h3 h4
    · exact iff_of_true rfl h1
    · exact iff_of_false (by simp [Except.isOk, Except.toBool]) h1
    · exact iff_of_false (by simp [Except.isOk, Except.toBool]) h1
    · exact iff_of_false (by simp [Except.isOk, Except.toBool]) h1
    · exact iff_of_false (by simp [Except.isOk, Except.toBool]) h1
  · intro s0 s1 hparts
    constructor
    · intro hz
      simp [parseAddress, hparts, hz]
    · intro hz
      simp [parseAddress, hparts, hz]
  · intro s0 s1 s2 rest hparts
    have hlen2 : ¬((s0 :: s1 :: s2 :: rest).length < 2) := by
      simp only [List.length_cons]
      omega
    have hlen2' : ¬(((s0 :: s1 :: s2 :: rest).length == 2) = true) := by
      simp only [List.length_cons, beq_iff_eq]
      omega
    constructor
    · intro hz
      simp only [parseAddress, hparts, List.getD_cons_succ, List.getD_cons_zero]
      rw [if_neg hlen2, if_neg hlen2', if_pos (by simp [hz.1, hz.2])]
    · intro hz
      simp only [parseAddress, hparts, List.getD_cons_succ, List.getD_cons_zero]
      rw [if_neg hlen2, if_neg hlen2', if_neg ?_]
      intro hc
      rw [Bool.and_eq_true, decide_eq_true_eq] at hc
      exact hz ⟨hc.1, hc.2⟩

theorem parseAddress_spec_witness :
    ((splitComma (trimL (str "8007 Broadmead Ct, Spartanburg, SC 29307"))).map trimL =
      [str "8007 Broadmead Ct", str "Spartanburg", str "SC 29307"]) ∧
    parseAddress (str "8007 Broadmead Ct, Spartanburg, SC 29307") =
      .ok { street := str "8007 Broadmead Ct", city := str "Spartanburg",
            state := str "SC", zip := some (str "29307") } := by
  refine ⟨by decide, ?_⟩
  have h := ((parseAddress_spec (str "8007 Broadmead Ct, Spartanburg, SC 29307")).2.2
    (str "8007 Broadmead Ct") (str "Spartanburg") (str "SC 29307") [] (by decide)).1
    (by decide)
  exact h.trans (congrArg Except.ok (by decide))

/-! ### C9 -/

/-- C9: a message whose sender matches no known source throws nothing,
yields zero candidate listings and exactly one error string; the
pipeline's counters are unchanged by that message and exactly one entry is
appended to its error list. -/
theorem unknown_source_one_error (clk : Clock) (sender : JStr) (doc : Doc) (st : Store)
    (h : determineSource sender none = str "unknown") :
    parsePropertyEmail clk doc sender =
      { properties := [], errors := [(str "Unknown email source: ") ++ sender] } ∧
    run clk [(sender, doc)] st =
      (st, { created := 0, updated := 0,
             errors := [(str "Unknown email source: ") ++ sender] }) := by
  have hp : parsePropertyEmail clk doc sender =
      { properties := [], errors := [(str "Unknown email source: ") ++ sender] } := by
    simp only [parsePropertyEmail, h]
    rw [if_neg (by decide), if_neg (by decide), if_neg (by decide), if_neg (by decide)]
  refine ⟨hp, ?_⟩
  simp [run, processPropertyEmails, hp]

theorem unknown_source_one_error_witness :
    determineSource (str "bob@nest.org") none = str "unknown" ∧
    parsePropertyEmail clkW [] (str "bob@nest.org") =
      { properties := [],
        errors := [(str "Unknown email source: ") ++ str "bob@nest.org"] } ∧
    run clkW [(str "bob@nest.org", [])] emptyStore =
      (emptyStore, { created := 0, updated := 0,
                     errors := [(str "Unknown email source: ") ++ str "bob@nest.org"] }) := by
  have h := unknown_source_one_error clkW (str "bob@nest.org") [] emptyStore (by decide)
  exact ⟨by decide, h.1, h.2⟩

/-! ### C8 -/

/-- Number of extracted candidates whose listing url is `u`. -/
def urlCount (l : List ParsedProperty) (u : JStr) : Nat :=
  (l.filter (fun c => c.url == u)).length

/-- The seen-url invariant of a parser fold state: every url occurs in the
accumulated candidates at most once, and any url that occurs is already in
the seen set. -/
def SeenInv (s : List JStr × List ParsedProperty) : Prop :=
  ∀ u, urlCount s.2 u ≤ 1 ∧ (1 ≤ urlCount s.2 u → u ∈ s.1)

/-- Shape of one fold step of a seen-url-deduplicating parser: it either
leaves the state unchanged, or marks a previously unseen url as seen
(possibly also emitting a single candidate carrying exactly that url). -/
def StepShape (step : (List JStr × List ParsedProperty) → Anchor → List JStr × List ParsedProperty)
    : Prop :=
  ∀ s a, step s a = s ∨
    ∃ url, url ∉ s.1 ∧
      (step s a = (s.1 ++ [url], s.2) ∨
       ∃ c : ParsedProperty, c.url = url ∧ step s a = (s.1 ++ [url], s.2 ++ [c]))

theorem urlCount_append_one (l : List ParsedProperty) (c : ParsedProperty) (u : JStr) :
    urlCount (l ++ [c]) u = urlCount l u + (if c.url = u then 1 else 0) := by
  by_cases h : c.url = u
  · have hb : (c.url == u) = true := beq_iff_eq.mpr h
    simp [urlCount, List.filter_append, List.filter, hb, h]
  · have hb : (c.url == u) = false := beq_eq_false_iff_ne.mpr h
    simp [urlCount, List.filter_append, List.filter, hb, h]

theorem stepShape_preserves (step)
    (hg : StepShape step) (s : List JStr × List ParsedProperty) (a : Anchor)
    (hs : SeenInv s) : SeenInv (step s a) := by
  rcases hg s a with heq | ⟨url, hnot, heq | ⟨c, hcu, heq⟩⟩
  · rw [heq]; exact hs
  · rw [heq]
    intro u
    obtain ⟨h1, h2⟩ := hs u
    exact ⟨h1, fun h => List.mem_append_left _ (h2 h)⟩
  · rw [heq]
    intro u
    obtain ⟨h1, h2⟩ := hs u
    by_cases hcu' : c.url = u
    · have huu : u = url := hcu'.symm.trans hcu
      have h0 : urlCount s.2 u = 0 := by
        by_contra hne
        exact hnot (huu ▸ h2 (Nat.one_le_iff_ne_zero.mpr hne))
      constructor
      · simp [urlCount_append_one, h0, hcu']
      · intro _
        exact List.mem_append_right _ (by simp [huu])
    · constructor
      · simp [urlCount_append_one, hcu']
        exact h1
      · intro h
        rw [urlCount_append_one] at h
        simp [hcu'] at h
        exact List.mem_append_left _ (h2 h)

theorem stepShape_fold (step) (hg : StepShape step) :
    ∀ (l : List Anchor) (s : List JStr × List ParsedProperty),
      SeenInv s → SeenInv (l.foldl step s) := by
  intro l
  induction l with
  | nil => intro s hs; exact hs
  | cons a l ih =>
    intro s hs
    exact ih _ (stepShape_preserves step hg s a hs)

theorem zillowStep_shape (source : JStr) : StepShape (zillowStep source) := by
  intro s a
  cases h : zillowAttempt a with
  | none => exact Or.inl (by simp [zillowStep, h])
  | some p =>
    obtain ⟨url, data⟩ := p
    by_cases hseen : s.1.contains url = true
    · refine Or.inl ?_
      simp only [zillowStep, h]
      rw [if_pos hseen]
    · have hnot : url ∉ s.1 := fun hm => hseen (List.elem_iff.mpr hm)
      cases data with
      | none =>
        refine Or.inr ⟨url, hnot, Or.inl ?_⟩
        simp only [zillowStep, h]
        rw [if_neg hseen]
      | some d =>
        obtain ⟨addr, price, specs, images⟩ := d
        refine Or.inr ⟨url, hnot, Or.inr ⟨{
          street := addr.street, city := addr.city,
          state := addr.state, zip := addr.zip, source := source, sourceId := url,
          url := url, price := price, beds := specs.beds, baths := specs.baths,
          sqft := specs.sqft, images := images }, rfl, ?_⟩⟩
        simp only [zillowStep, h]
        rw [if_neg hseen]

theorem realtorStep_shape (source : JStr) : StepShape (realtorStep source) := by
  intro s a
  cases h : realtorAttempt a with
  | none => exact Or.inl (by simp [realtorStep, h])
  | some p =>
    obtain ⟨url, data⟩ := p
    by_cases hseen : s.1.contains url = true
    · refine Or.inl ?_
      simp only [realtorStep, h]
      rw [if_pos hseen]
    · have hnot : url ∉ s.1 := fun hm => hseen (List.elem_iff.mpr hm)
      cases data with
      | none =>
        refine Or.inr ⟨url, hnot, Or.inl ?_⟩
        simp only [realtorStep, h]
        rw [if_neg hseen]
      | some d =>
        obtain ⟨addr, price, specs, images⟩ := d
        refine Or.inr ⟨url, hnot, Or.inr ⟨{
          street := addr.street, city := addr.city,
          state := addr.state, zip := addr.zip, source := source, sourceId := url,
          url := url, price := price, beds := specs.beds, baths := specs.baths,
          sqft := specs.sqft, images := images }, rfl, ?_⟩⟩
        simp only [realtorStep, h]
        rw [if_neg hseen]

/-- Two string-equal Redfin anchors backed by the same listing card. -/
def rfDupAnchor : Anchor :=
  { href := some (str "https://redfin.com/x/home/99"),
    cardB := some { text := str "1 A St, B, SC $5" } }

/-- Two string-equal Land.com anchors backed by the same listing card. -/
def landDupAnchor : Anchor :=
  { href := some (str "https://land.com/p/123"),
    cardB := some { text := str "Farm Rd, B, SC $5" } }

/-- C8 (amended): the Zillow and Realtor parsers deduplicate anchors by
exact link target before extraction (at most one CandidateListing per link
target per invocation), but the Redfin and Land parsers do not track seen
urls — two anchor elements with string-equal link targets can each yield a
CandidateListing. -/
theorem anchor_dedup_per_source :
    (∀ (source : JStr) (doc : Doc) (u : JStr),
      urlCount (parseZillowEmail source doc) u ≤ 1) ∧
    (∀ (source : JStr) (doc : Doc) (u : JStr),
      urlCount (parseRealtorEmail source doc) u ≤ 1) ∧
    urlCount (parseRedfinEmail clkW (str "redfin") [rfDupAnchor, rfDupAnchor])
      (str "https://redfin.com/x/home/99") = 2 ∧
    urlCount (parseLandEmail (str "land") [landDupAnchor, landDupAnchor])
      (str "https://land.com/p/123") = 2 := by
  have hinit : SeenInv (([], []) : List JStr × List ParsedProperty) := by
    intro u
    simp [urlCount]
  refine ⟨?_, ?_, by decide, by decide⟩
  · intro source doc u
    exact (stepShape_fold (zillowStep source) (zillowStep_shape source)
      (anchorsFor (str "zillow.com") doc) ([], []) hinit u).1
  · intro source doc u
    exact (stepShape_fold (realtorStep source) (realtorStep_shape source)
      (realtorAnchors doc) ([], []) hinit u).1

/-- C8 counterexample: in the Redfin parser a single invocation maps two
anchor elements with string-equal link targets to two CandidateListings —
no deduplication by link target happens. -/
theorem redfin_duplicate_counterexample :
    (parseRedfinEmail clkW (str "redfin") [rfDupAnchor, rfDupAnchor]).map
      (fun c => c.url) =
      [str "https://redfin.com/x/home/99", str "https://redfin.com/x/home/99"] ∧
    (parseRedfinEmail clkW (str "redfin") [rfDupAnchor, rfDupAnchor]).length = 2 := by
  decide

end FelInv
